import Mathlib

/-!
# Moderation engine of `src/index.js`

A shallow embedding of the classification and escalation code of the bot:
the lexicon loader and matcher, `detectLinks`, `checkForViolations`,
`handleViolation` and `applyPunishment`, with the two in-memory maps and the
`violations` collection as explicit state.

JavaScript strings are modelled as lists of characters.  The two host
functions whose definition is outside the repository, `String.toLowerCase`
and `new URL(..).hostname`, are fields of `Host`, so every theorem holds for
whatever these functions compute.
-/

namespace ModBot

/-- A JavaScript string. -/
abbrev Str := List Char

/-- Discord user id (`message.author.id`). -/
abbrev UserId := String

/-- Host functions used by the source and defined outside it:
`toLowerCase` is `String.prototype.toLowerCase`, `urlHostname s` is
`new URL(s).hostname`, with `none` when the constructor throws. -/
structure Host where
  toLowerCase : Str → Str
  urlHostname : Str → Option Str

/-! ## String primitives -/

/-- The characters of the regular-expression class `\s`, which are also the
characters removed by `String.prototype.trim` (white space and line
terminators). -/
def isWhiteSpace (c : Char) : Bool :=
  let n := c.toNat
  n = 9 || n = 10 || n = 11 || n = 12 || n = 13 || n = 32 || n = 160 ||
  n = 0x1680 || (0x2000 ≤ n && n ≤ 0x200A) || n = 0x2028 || n = 0x2029 ||
  n = 0x202F || n = 0x205F || n = 0x3000 || n = 0xFEFF

/-- JavaScript `String.prototype.trim`. -/
def trim (s : Str) : Str :=
  ((s.dropWhile isWhiteSpace).reverse.dropWhile isWhiteSpace).reverse

/-- JavaScript `s.startsWith(p)`. -/
def startsWith (s p : Str) : Bool := p.isPrefixOf s

/-- JavaScript `s.includes(sub)`: `sub` starts at some position of `s`. -/
def includes : Str → Str → Bool
  | [], sub => sub.isEmpty
  | c :: cs, sub => startsWith (c :: cs) sub || includes cs sub

/-- JavaScript `s.replace(pat, rep)` with a string pattern: the first
occurrence of `pat`, wherever it is, is replaced. -/
def replaceFirst (pat rep : Str) : Str → Str
  | [] => if pat.isEmpty then rep else []
  | c :: cs =>
    if startsWith (c :: cs) pat then rep ++ (c :: cs).drop pat.length
    else c :: replaceFirst pat rep cs

/-- JavaScript `s.split('\n')`. -/
def splitLines : Str → List Str
  | [] => [[]]
  | c :: cs =>
    if c = '\n' then [] :: splitLines cs
    else
      match splitLines cs with
      | [] => [[c]]
      | l :: ls => (c :: l) :: ls

/-! ## Lexicon -/

/-- The loader of lines 8-11: split the file on new lines, trim and
lower-case every line, drop the empty ones. -/
def abusiveWordsDataset (H : Host) (file : Str) : List Str :=
  ((splitLines file).map (fun word => H.toLowerCase (trim word))).filter
    (fun word => decide (word.length > 0))

/-- Function `checkAbusiveUsername` (lines 178-184). -/
def checkAbusiveUsername (H : Host) (dataset : List Str) (username : Str) : Bool :=
  let lowerUsername := H.toLowerCase username
  dataset.any (fun word =>
    includes lowerUsername (H.toLowerCase word) ||
    decide (lowerUsername = H.toLowerCase word))

/-- The abusive-language rule of `checkForViolations` (lines 268-270). -/
def abusiveWordFound (H : Host) (dataset : List Str) (content : Str) : Bool :=
  let lowerContent := H.toLowerCase content
  dataset.any (fun word => includes lowerContent (H.toLowerCase word))

/-! ## Links -/

/-- One literal character of a pattern under the `i` flag.  The literals of
`urlRegex` are lower-case ASCII letters and punctuation, for which the
flag adds exactly the upper-case ASCII letter. -/
def litMatches (p c : Char) : Bool := c.toLower == p

/-- Match a run of literals at the start of the input; the rest of the input
on success. -/
def matchLiteral : Str → Str → Option Str
  | [], s => some s
  | _ :: _, [] => none
  | p :: ps, c :: cs => if litMatches p c then matchLiteral ps cs else none

/-- Length of a match of `[^\s]+` at the start of the input (greedy; nothing
follows it in either alternative, so the longest run is the match). -/
def matchNonSpace (s : Str) : Option Nat :=
  let run := s.takeWhile (fun c => !isWhiteSpace c)
  if run.isEmpty then none else some run.length

/-- Length of a match of `:\/\/[^\s]+` at the start of the input. -/
def matchSlashes (s : Str) : Option Nat :=
  match matchLiteral "://".toList s with
  | some r => (matchNonSpace r).map (fun n => 3 + n)
  | none => none

/-- Length of a match of `https?:\/\/[^\s]+` at the start of the input:
the optional `s` is tried first, then the match without it. -/
def matchHttp (s : Str) : Option Nat :=
  match matchLiteral "http".toList s with
  | none => none
  | some r =>
    let withS : Option Nat :=
      match matchLiteral "s".toList r with
      | some r2 => (matchSlashes r2).map (fun n => 5 + n)
      | none => none
    match withS with
    | some n => some n
    | none => (matchSlashes r).map (fun n => 4 + n)

/-- Length of a match of `www\.[^\s]+` at the start of the input. -/
def matchWww (s : Str) : Option Nat :=
  match matchLiteral "www.".toList s with
  | some r => (matchNonSpace r).map (fun n => 4 + n)
  | none => none

/-- Length of a match of `urlRegex` at the start of the input: the first
alternative, else the second. -/
def matchUrlAt (s : Str) : Option Nat :=
  match matchHttp s with
  | some n => some n
  | none => matchWww s

/-- All matches of the global regex, left to right, each search starting
where the previous match ended.  `skip` counts the characters of the
current match still to pass over. -/
def matchAllFrom : Nat → Str → List Str
  | _, [] => []
  | skip + 1, _ :: cs => matchAllFrom skip cs
  | 0, c :: cs =>
    match matchUrlAt (c :: cs) with
    | some n => (c :: cs).take n :: matchAllFrom (n - 1) cs
    | none => matchAllFrom 0 cs

/-- The value of `content.match(urlRegex) || []`. -/
def urlMatches (content : Str) : List Str := matchAllFrom 0 content

/-! ## Configuration -/

/-- The `type` of a punishment tier. -/
inductive PunishmentType where
  | WARN
  | MUTE
  | BAN
  deriving DecidableEq, Repr

/-- One tier of a punishment ladder. -/
structure Punishment where
  type : PunishmentType
  duration : Option Nat
  dm : String
  channelMsg : String
  deriving DecidableEq, Repr

/-- A punishment ladder: a JavaScript object indexed by tier number, `none`
where the key is absent. -/
abbrev Ladder := Nat → Option Punishment

/-- The recognised fields of `config` that the moderation code reads. -/
structure Config where
  spamThreshold : Nat
  spamWindow : Int
  mentionLimit : Nat
  allowedDomains : List Str
  punishments : Ladder
  linkPunishments : Ladder
  mentionPunishments : Ladder
  spamPunishments : Ladder

/-- The value of `config.punishments` (lines 40-57). -/
def punishments : Ladder
  | 1 => some ⟨.WARN, none,
      "⚠️ **First Warning**\nYour message violated server rules.\nNext offense: 5-minute mute",
      "{user} received a warning (1/3)"⟩
  | 2 => some ⟨.MUTE, some (5 * 60 * 1000),
      "🔇 **You have been muted for 5 minutes**\nReason: Repeated violations",
      "🔇 {user} muted for 5 minutes (2/3)"⟩
  | 3 => some ⟨.BAN, none,
      "🚫 **You have been banned**\nReason: Multiple rule violations",
      "🚫 {user} banned (violations cleared)"⟩
  | _ => none

/-- The value of `config.linkPunishments` (lines 58-75). -/
def linkPunishments : Ladder
  | 1 => some ⟨.WARN, none,
      "⚠️ **Link Warning**\nSending links is not allowed in this server.\nNext offense: 5-minute mute",
      "{user} received a warning for sending links (1/3)"⟩
  | 2 => some ⟨.MUTE, some (5 * 60 * 1000),
      "🔇 **You have been muted for 5 minutes**\nReason: Repeated link sharing",
      "🔇 {user} muted for 5 minutes for sending links (2/3)"⟩
  | 3 => some ⟨.BAN, none,
      "🚫 **You have been banned**\nReason: Multiple link sharing violations",
      "🚫 {user} banned for repeated link sharing (violations cleared)"⟩
  | _ => none

/-- The value of `config.mentionPunishments` (lines 76-93). -/
def mentionPunishments : Ladder
  | 1 => some ⟨.WARN, none,
      "⚠️ **Mention Warning**\nYou mentioned too many users in one message (max {limit} allowed).\nNext offense: 5-minute mute",
      "{user} received a warning for mass mentions (1/3)"⟩
  | 2 => some ⟨.MUTE, some (5 * 60 * 1000),
      "🔇 **You have been muted for 5 minutes**\nReason: Repeated mass mentions",
      "🔇 {user} muted for 5 minutes for mass mentions (2/3)"⟩
  | 3 => some ⟨.BAN, none,
      "🚫 **You have been banned**\nReason: Multiple mass mention violations",
      "🚫 {user} banned for repeated mass mentions (violations cleared)"⟩
  | _ => none

/-- The value of `config.spamPunishments` (lines 94-111). -/
def spamPunishments : Ladder
  | 1 => some ⟨.WARN, none,
      "⚠️ **Spam Warning**\nPlease stop spamming messages.\nNext offense: 5-minute mute",
      "{user} received a warning for spamming (1/3)"⟩
  | 2 => some ⟨.MUTE, some (5 * 60 * 1000),
      "🔇 **You have been muted for 5 minutes**\nReason: Repeated spamming",
      "🔇 {user} muted for 5 minutes for spamming (2/3)"⟩
  | 3 => some ⟨.BAN, none,
      "🚫 **You have been banned**\nReason: Multiple spamming violations",
      "🚫 {user} banned for repeated spamming (violations cleared)"⟩
  | _ => none

/-- The constant `config` of lines 30-112. -/
def config : Config where
  spamThreshold := 5
  spamWindow := 10000
  mentionLimit := 2
  allowedDomains := ["discord.com".toList, "discord.gg".toList]
  punishments := punishments
  linkPunishments := linkPunishments
  mentionPunishments := mentionPunishments
  spamPunishments := spamPunishments

/-- Function `detectLinks` (lines 230-244): the regex matches, without those
whose host name, after `replace('www.', '')`, is an allowed domain. A token
whose URL does not parse is kept. -/
def detectLinks (H : Host) (cfg : Config) (content : Str) : List Str :=
  (urlMatches content).filter (fun link =>
    match H.urlHostname
        (if startsWith link "http".toList then link else "http://".toList ++ link) with
    | some hostname =>
      let domain := replaceFirst "www.".toList [] hostname
      !(cfg.allowedDomains.contains domain)
    | none => true)

/-! ## Verdicts and state -/

/-- The `type` of a violation. -/
inductive ViolationType where
  | MASS_MENTION
  | DISALLOWED_LINK
  | ABUSIVE_LANGUAGE
  | SPAM
  deriving DecidableEq, Repr

/-- The values interpolated into the `details` string of a violation, one
constructor per template of `checkForViolations`; the rendering of the
template itself is not modelled. -/
inductive Details where
  /-- Template: Mentioned (count) users (max (limit) allowed). -/
  | mentioned (count limit : Nat)
  /-- Template: Sent (number of links) links: (the links, comma separated). -/
  | sentLinks (links : List Str)
  /-- Text: Matched abusive words dataset. -/
  | matchedDataset
  /-- Template: (recent) messages in (window/1000)s. -/
  | messagesInWindow (recent : Nat) (window : Int)
  deriving DecidableEq, Repr

/-- The object returned by `checkForViolations`; `count` is present on the
spam verdict only. -/
structure Violation where
  type : ViolationType
  details : Details
  count : Option Nat
  deriving DecidableEq, Repr

/-- The fields of a message that the moderation code reads;
`mentionCount` is `message.mentions.users.size`. -/
structure Message where
  authorId : UserId
  authorTag : String
  content : Str
  mentionCount : Nat
  deriving DecidableEq, Repr

/-- The names of the four counters of a violation document. -/
inductive CountField where
  | count
  | linkViolations
  | mentionViolations
  | spamViolations
  deriving DecidableEq, Repr

/-- The field `lastViolation` of a violation document, without its server
time stamp. -/
structure LastViolation where
  type : ViolationType
  details : Details
  content : Str
  deriving DecidableEq, Repr

/-- A document of the `violations` collection; a counter is `none` when the
document lacks the field. -/
structure ViolationDoc where
  username : String
  userId : UserId
  count : Option Nat
  linkViolations : Option Nat
  mentionViolations : Option Nat
  spamViolations : Option Nat
  lastViolation : Option LastViolation
  deriving DecidableEq, Repr

/-- The expression `doc.data()[countField]`. -/
def ViolationDoc.field (d : ViolationDoc) : CountField → Option Nat
  | .count => d.count
  | .linkViolations => d.linkViolations
  | .mentionViolations => d.mentionViolations
  | .spamViolations => d.spamViolations

/-- Assignment of one counter, as done by the computed key
`[countField]: newCount` of a merging `set`. -/
def ViolationDoc.setField (d : ViolationDoc) (f : CountField) (n : Nat) : ViolationDoc :=
  match f with
  | .count => { d with count := some n }
  | .linkViolations => { d with linkViolations := some n }
  | .mentionViolations => { d with mentionViolations := some n }
  | .spamViolations => { d with spamViolations := some n }

/-- The mutable state the moderation code works on: the two in-memory maps
of lines 115-116 and the `violations` collection of the store. -/
structure State where
  userMessageTimestamps : UserId → Option (List Int)
  userSpamCounts : UserId → Option Nat
  violations : UserId → Option ViolationDoc

/-- The state of a fresh process over an empty store. -/
def State.empty : State := ⟨fun _ => none, fun _ => none, fun _ => none⟩

/-! ## Classification -/

/-- The array `recentMessages` of line 284: the stored time stamps `t` of the
user with `now - t < config.spamWindow`. -/
def recentMessages (cfg : Config) (st : State) (userId : UserId) (now : Int) : List Int :=
  ((st.userMessageTimestamps userId).getD []).filter
    (fun t => decide (now - t < cfg.spamWindow))

/-- The spam detection of `checkForViolations` (lines 276-306), with
`now` the value of `Date.now()`: the verdict and the state it leaves. -/
def spamCheck (cfg : Config) (st : State) (userId : UserId) (now : Int) :
    Option Violation × State :=
  let recent := recentMessages cfg st userId now
  let st1 : State :=
    { st with userMessageTimestamps :=
        Function.update st.userMessageTimestamps userId (some (recent ++ [now])) }
  if cfg.spamThreshold ≤ recent.length then
    let spamCount := (st1.userSpamCounts userId).getD 0
    let newSpamCount := spamCount + 1
    let st2 : State :=
      { st1 with userSpamCounts :=
          Function.update st1.userSpamCounts userId (some newSpamCount) }
    let st3 : State :=
      { st2 with userMessageTimestamps :=
          Function.update st2.userMessageTimestamps userId (some []) }
    (some ⟨.SPAM, .messagesInWindow recent.length cfg.spamWindow, some newSpamCount⟩, st3)
  else
    (none, st1)

/-- Function `checkForViolations` (lines 246-307); `none` is `null`. -/
def checkForViolations (H : Host) (cfg : Config) (dataset : List Str) (st : State)
    (message : Message) (now : Int) : Option Violation × State :=
  let mentionCount := message.mentionCount
  if mentionCount > cfg.mentionLimit then
    (some ⟨.MASS_MENTION, .mentioned mentionCount cfg.mentionLimit, none⟩, st)
  else
    let detectedLinks := detectLinks H cfg message.content
    if detectedLinks.length > 0 then
      (some ⟨.DISALLOWED_LINK, .sentLinks detectedLinks, none⟩, st)
    else if abusiveWordFound H dataset message.content then
      (some ⟨.ABUSIVE_LANGUAGE, .matchedDataset, none⟩, st)
    else
      spamCheck cfg st message.authorId now

/-! ## Escalation -/

/-- The counter selected by lines 320-332. -/
def countFieldOf : ViolationType → CountField
  | .DISALLOWED_LINK => .linkViolations
  | .MASS_MENTION => .mentionViolations
  | .SPAM => .spamViolations
  | .ABUSIVE_LANGUAGE => .count

/-- The ladder selected by lines 320-332. -/
def ladderOf (cfg : Config) : ViolationType → Ladder
  | .DISALLOWED_LINK => cfg.linkPunishments
  | .MASS_MENTION => cfg.mentionPunishments
  | .SPAM => cfg.spamPunishments
  | .ABUSIVE_LANGUAGE => cfg.punishments

/-- The expression `doc.exists ? doc.data()[countField] || 0 : 0` (line 334). -/
def currentCount (doc : Option ViolationDoc) (f : CountField) : Nat :=
  match doc with
  | some d => (d.field f).getD 0
  | none => 0

/-- The expression `violation.count || currentCount + 1` (line 335): an
absent or zero `count` is falsy. -/
def newCount (violation : Violation) (current : Nat) : Nat :=
  match violation.count with
  | some c => if c ≠ 0 then c else current + 1
  | none => current + 1

/-- The document left by the merging `set` of lines 337-347. -/
def mergeSet (doc : Option ViolationDoc) (message : Message) (violation : Violation)
    (f : CountField) (n : Nat) : ViolationDoc :=
  let last : LastViolation := ⟨violation.type, violation.details, message.content⟩
  match doc with
  | some d =>
    ({ d with username := message.authorTag, userId := message.authorId,
              lastViolation := some last }).setField f n
  | none =>
    (ViolationDoc.mk message.authorTag message.authorId none none none none
      (some last)).setField f n

/-- The ladder passed to `applyPunishment` (lines 350-353): for a mass
mention with a non-empty tier 1 `dm`, a copy in which the first `\x7blimit\x7d`
of that text is replaced by the mention limit. -/
def customizeLadder (cfg : Config) (type : ViolationType) (ladder : Ladder) : Ladder :=
  match type, ladder 1 with
  | .MASS_MENTION, some p =>
    if p.dm ≠ "" then
      fun tier =>
        if tier = 1 then
          some { p with
            dm := String.mk (replaceFirst "{limit}".toList
              (Nat.repr cfg.mentionLimit).toList p.dm.toList) }
        else ladder tier
    else ladder
  | _, _ => ladder

/-- The entry `punishmentConfig[Math.min(violationCount, 3)]` (line 364). -/
def selectPunishment (punishmentConfig : Ladder) (violationCount : Nat) : Option Punishment :=
  punishmentConfig (min violationCount 3)

/-- Which of the awaited calls that can reject succeed: the store `get` and
`set` of `handleViolation`, `member.ban` and the store `delete` of
`applyPunishment`.  The other awaited calls (message deletion, direct
message, time-out, channel message) do not touch the state whether they
succeed or not. -/
structure Outcome where
  getOk : Bool
  setOk : Bool
  banOk : Bool
  deleteOk : Bool
  deriving DecidableEq, Repr

/-- The outcome in which every call succeeds. -/
def Outcome.allOk : Outcome := ⟨true, true, true, true⟩

/-- Function `applyPunishment` (lines 363-420) as a state change.  Only the
`BAN` case changes the state, and only when the ban and then the delete have
succeeded; an undefined punishment throws before any change. -/
def applyPunishment (o : Outcome) (st : State) (message : Message) (violationCount : Nat)
    (punishmentConfig : Ladder) : State :=
  match selectPunishment punishmentConfig violationCount with
  | none => st
  | some punishment =>
    match punishment.type with
    | .BAN =>
      if o.banOk && o.deleteOk then
        { userMessageTimestamps :=
            Function.update st.userMessageTimestamps message.authorId none
          userSpamCounts := Function.update st.userSpamCounts message.authorId none
          violations := Function.update st.violations message.authorId none }
      else st
    | _ => st

/-- The state after the store update of `handleViolation` (lines 314-347),
`none` when the `get` or the `set` rejects. -/
def recordViolation (o : Outcome) (st : State) (message : Message) (violation : Violation) :
    Option State :=
  if o.getOk && o.setOk then
    let doc := st.violations message.authorId
    let countField := countFieldOf violation.type
    let n := newCount violation (currentCount doc countField)
    let written := mergeSet doc message violation countField n
    some { st with
      violations := Function.update st.violations message.authorId (some written) }
  else none

/-- The count that `handleViolation` passes to `applyPunishment`: `newCount`
of lines 334-335, computed from the document read at line 315. -/
def passedCount (st : State) (message : Message) (violation : Violation) : Nat :=
  newCount violation (currentCount (st.violations message.authorId) (countFieldOf violation.type))

/-- The ladder that `handleViolation` passes to `applyPunishment`. -/
def passedLadder (cfg : Config) (violation : Violation) : Ladder :=
  customizeLadder cfg violation.type (ladderOf cfg violation.type)

/-- The punishment that `applyPunishment` selects when called by
`handleViolation`. -/
def selectedPunishment (cfg : Config) (st : State) (message : Message)
    (violation : Violation) : Option Punishment :=
  selectPunishment (passedLadder cfg violation) (passedCount st message violation)

/-- Function `handleViolation` (lines 309-361) as a state change. -/
def handleViolation (cfg : Config) (o : Outcome) (st : State) (message : Message)
    (violation : Violation) : State :=
  match recordViolation o st message violation with
  | none => st
  | some st1 =>
    applyPunishment o st1 message (passedCount st message violation)
      (passedLadder cfg violation)

/-- The first `messageCreate` listener (lines 152-164) on a message that
`shouldIgnoreMessage` lets through. -/
def messageCreate (H : Host) (cfg : Config) (dataset : List Str) (o : Outcome) (st : State)
    (message : Message) (now : Int) : State :=
  match checkForViolations H cfg dataset st message now with
  | (some violation, st1) => handleViolation cfg o st1 message violation
  | (none, st1) => st1

/-- The count that `handleViolation` reads for a user and a counter. -/
def readCount (st : State) (userId : UserId) (f : CountField) : Nat :=
  currentCount (st.violations userId) f

/-- The verdicts of `checkForViolations` on a sequence of messages with their
arrival times, the state threaded through, and the state left. -/
def checkAll (H : Host) (cfg : Config) (dataset : List Str) :
    State → List (Message × Int) → List (Option Violation) × State
  | st, [] => ([], st)
  | st, (m, now) :: rest =>
    let r := checkForViolations H cfg dataset st m now
    let rs := checkAll H cfg dataset r.2 rest
    (r.1 :: rs.1, rs.2)

/-- The stored value of one counter of a user, `none` when the document or
the field is absent. -/
def storedField (st : State) (userId : UserId) (f : CountField) : Option Nat :=
  (st.violations userId).bind (fun d => d.field f)

/-! ## The specification's wording, for comparison -/

/-- A term occurs in a text ignoring letter case, as the claim words it: some
contiguous part of the text is, letter for letter, the term up to case.
`fold` sends a character to the representative of its letter, so that two
characters are the same letter when their images agree. -/
def OccursIgnoringCase (fold : Char → Char) (term text : Str) : Prop :=
  ∃ before mid after, text = before ++ mid ++ after ∧ mid.map fold = term.map fold

/-- The text whose lines are the given ones: the lines with a new-line
character between each two. -/
def joinLines : List Str → Str
  | [] => []
  | [line] => line
  | line :: rest => line ++ '\n' :: joinLines rest

/-- The tracker step as the specification words it: remove the entries
older than `now - W`, report spam with the number of entries left when that
number reaches the threshold and store the empty log, else store the
entries left followed by `now`.  The result is the reported count, if spam,
and the log stored. -/
def recordAndCheckSpec (T : Nat) (W : Int) (log : List Int) (now : Int) :
    Option Nat × List Int :=
  let pruned := log.filter (fun t => !decide (t < now - W))
  if T ≤ pruned.length then (some pruned.length, []) else (none, pruned ++ [now])

/-- A host name with a leading `www.` stripped, as the specification words
the normalisation of `detectLinks`. -/
def stripLeadingWwwSpec (hostname : Str) : Str :=
  if startsWith hostname "www.".toList then hostname.drop 4 else hostname

/-! ## Concrete data for the examples -/

/-- A host for evaluating examples: ASCII lower-casing, and for the two
URLs used in the examples the host name that a URL parser returns. -/
def sampleHost : Host where
  toLowerCase := List.map Char.toLower
  urlHostname := fun url =>
    if url = "http://evil.example/x".toList then some "evil.example".toList
    else if url = "http://discowww.rd.com/x".toList then some "discowww.rd.com".toList
    else none

/-- The small letter of an ASCII or Greek capital letter, any other
character unchanged; the capital sigma gives the non-final small sigma. -/
def lowerLetter (c : Char) : Char :=
  if 0x391 ≤ c.toNat ∧ c.toNat ≤ 0x3A9 then Char.ofNat (c.toNat + 32) else c.toLower

/-- ASCII and Greek letters. -/
def isLetter (c : Char) : Bool :=
  c.isAlpha || (0x391 ≤ c.toNat && c.toNat ≤ 0x3C9)

/-- Lower-casing of a string of ASCII and Greek letters as
`String.prototype.toLowerCase` does it: character by character, except that
a capital sigma which follows a letter and is not followed by one becomes
the final small sigma.  `afterLetter` tells whether the character before
the input is a letter. -/
def lowerFinalSigma : Bool → Str → Str
  | _, [] => []
  | afterLetter, c :: cs =>
    if c = 'Σ' then
      (if afterLetter && !(cs.head?.map isLetter).getD false then 'ς' else 'σ') ::
        lowerFinalSigma true cs
    else lowerLetter c :: lowerFinalSigma (isLetter c) cs

/-- A host whose `toLowerCase` knows the final sigma. -/
def sigmaHost : Host where
  toLowerCase := lowerFinalSigma false
  urlHostname := fun _ => none

/-- The letter of a character, case ignored: its small letter, the two small
sigmas being one letter. -/
def foldLetter (c : Char) : Char :=
  if c = 'ς' then 'σ' else lowerLetter c

/-- A message of user 42 with the given text and number of mentioned users. -/
def sampleMessage (text : String) (mentions : Nat) : Message :=
  ⟨"42", "user#0042", text.toList, mentions⟩

/-- A one-word lexicon. -/
def sampleDataset : List Str := abusiveWordsDataset sampleHost "Badword\n\n".toList

/-- Five harmless messages of user 42 within nine seconds. -/
def fiveMessages : List (Message × Int) :=
  [(sampleMessage "one" 0, 0), (sampleMessage "two" 0, 2000), (sampleMessage "three" 1, 4000),
   (sampleMessage "four" 0, 6000), (sampleMessage "five" 2, 9000)]

/-- A store that holds one document, of user 42, with the given counters,
under a fresh process (both in-memory maps empty). -/
def storeWith (count link mention spam : Option Nat) : State where
  userMessageTimestamps := fun _ => none
  userSpamCounts := fun _ => none
  violations := fun u =>
    if u = "42" then some ⟨"user#0042", "42", count, link, mention, spam, none⟩ else none

/-- A tracker that holds for user 42 the given log of time stamps. -/
def trackerWith (log : List Int) : State where
  userMessageTimestamps := fun u => if u = "42" then some log else none
  userSpamCounts := fun _ => none
  violations := fun _ => none

/-- A state in which user 42 has two link violations, counts in two other
categories, a spam trip count and a log of time stamps. -/
def banSampleState : State where
  userMessageTimestamps := fun u => if u = "42" then some [100, 200] else none
  userSpamCounts := fun u => if u = "42" then some 2 else none
  violations := fun u =>
    if u = "42" then some ⟨"user#0042", "42", some 1, some 2, none, some 2, none⟩ else none

/-- The user has no document in the store, reads 0 in each of the four
categories, and has no entry in `userSpamCounts` nor in
`userMessageTimestamps`. -/
def ClearedFor (st : State) (userId : UserId) : Prop :=
  st.violations userId = none ∧ (∀ f, readCount st userId f = 0) ∧
  st.userSpamCounts userId = none ∧ st.userMessageTimestamps userId = none

/-! # Theorems -/

/-! ## Lexicon matching -/

theorem includes_iff_isInfix (s sub : Str) : includes s sub = true ↔ sub <:+: s := by
  induction s with
  | nil => simp [includes, List.isEmpty_iff]
  | cons c cs ih =>
    simp only [includes, startsWith, Bool.or_eq_true, ih, List.infix_cons_iff,
      List.isPrefixOf_iff_prefix]

/-- A list is a contiguous part of the image of a text exactly when it is
the image of a contiguous part of the text. -/
theorem isInfix_map_iff (f : Char → Char) (l text : Str) :
    l <:+: text.map f ↔
      ∃ before mid after, text = before ++ mid ++ after ∧ mid.map f = l := by
  constructor
  · rintro ⟨a, b, h⟩
    obtain ⟨ab, rest, h1, h2, h3⟩ := List.map_eq_append_iff.1 h.symm
    obtain ⟨pre, mid, h4, h5, h6⟩ := List.map_eq_append_iff.1 h2
    exact ⟨pre, mid, rest, by rw [h1, h4], h6⟩
  · rintro ⟨before, mid, after, h, hm⟩
    refine ⟨before.map f, after.map f, ?_⟩
    rw [h, ← hm]
    simp

theorem mem_abusiveWordsDataset (H : Host) (file term : Str) :
    term ∈ abusiveWordsDataset H file ↔
      term ≠ [] ∧ ∃ line ∈ splitLines file, term = H.toLowerCase (trim line) := by
  simp only [abusiveWordsDataset, List.mem_filter, List.mem_map, decide_eq_true_eq,
    List.length_pos]
  constructor
  · rintro ⟨⟨l, hl, rfl⟩, hne⟩
    exact ⟨hne, l, hl, rfl⟩
  · rintro ⟨hne, l, hl, rfl⟩
    exact ⟨⟨l, hl, rfl⟩, hne⟩

/-- Both matchers test whether the lower-cased form of some term is a
contiguous part of the lower-cased text. -/
theorem matchers_iff_lowered (H : Host) (dataset : List Str) (text : Str) :
    (checkAbusiveUsername H dataset text = true ↔
      ∃ term ∈ dataset, H.toLowerCase term <:+: H.toLowerCase text) ∧
    (abusiveWordFound H dataset text = true ↔
      ∃ term ∈ dataset, H.toLowerCase term <:+: H.toLowerCase text) := by
  constructor
  · simp only [checkAbusiveUsername, List.any_eq_true, Bool.or_eq_true, decide_eq_true_eq]
    constructor
    · rintro ⟨w, hw, h | h⟩
      · exact ⟨w, hw, (includes_iff_isInfix _ _).1 h⟩
      · exact ⟨w, hw, by rw [h]⟩
    · rintro ⟨w, hw, h⟩
      exact ⟨w, hw, Or.inl ((includes_iff_isInfix _ _).2 h)⟩
  · simp only [abusiveWordFound, List.any_eq_true]
    constructor
    · rintro ⟨w, hw, h⟩
      exact ⟨w, hw, (includes_iff_isInfix _ _).1 h⟩
    · rintro ⟨w, hw, h⟩
      exact ⟨w, hw, (includes_iff_isInfix _ _).2 h⟩

/-! ### The loader -/

theorem splitLines_ne_nil (file : Str) : splitLines file ≠ [] := by
  cases file with
  | nil => simp [splitLines]
  | cons c cs =>
    simp only [splitLines]
    split
    · simp
    · split <;> simp

/-- The lines of a file, joined by new lines, are the file. -/
theorem joinLines_splitLines (file : Str) : joinLines (splitLines file) = file := by
  induction file with
  | nil => rfl
  | cons c cs ih =>
    simp only [splitLines]
    split
    · next hc =>
      cases hs : splitLines cs with
      | nil => exact absurd hs (splitLines_ne_nil cs)
      | cons l ls =>
        rw [hs] at ih
        simp only [joinLines, List.nil_append, hc, ih]
    · cases hs : splitLines cs with
      | nil => exact absurd hs (splitLines_ne_nil cs)
      | cons l ls =>
        rw [hs] at ih
        cases ls with
        | nil =>
          simp only [joinLines] at ih ⊢
          rw [ih]
        | cons l2 ls2 =>
          simp only [joinLines, List.cons_append] at ih ⊢
          rw [ih]

/-- No line holds a new-line character. -/
theorem splitLines_no_newline (file : Str) : ∀ line ∈ splitLines file, '\n' ∉ line := by
  induction file with
  | nil => simp [splitLines]
  | cons c cs ih =>
    simp only [splitLines]
    split
    · intro line hl
      rcases List.mem_cons.1 hl with h | h
      · rw [h]; simp
      · exact ih line h
    · next hc =>
      cases hs : splitLines cs with
      | nil => exact absurd hs (splitLines_ne_nil cs)
      | cons l ls =>
        rw [hs] at ih
        intro line hl
        rcases List.mem_cons.1 hl with h | h
        · rw [h]
          intro hmem
          rcases List.mem_cons.1 hmem with h2 | h2
          · exact hc h2.symm
          · exact ih l (List.mem_cons_self _ _) h2
        · exact ih line (List.mem_cons_of_mem _ h)

theorem dropWhile_head_not (p : Char → Bool) (l : Str) (c : Char) (cs : Str)
    (h : l.dropWhile p = c :: cs) : p c = false := by
  induction l with
  | nil => simp at h
  | cons a as ih =>
    by_cases ha : p a = true
    · rw [List.dropWhile_cons_of_pos ha] at h
      exact ih h
    · rw [List.dropWhile_cons_of_neg ha] at h
      simp only [List.cons.injEq] at h
      rw [← h.1]
      simpa using ha

/-- The trimmed string is the string without a leading and a trailing run of
white space, and neither starts nor ends with white space. -/
theorem trim_spec (s : Str) :
    (∃ pre post, s = pre ++ trim s ++ post ∧
      (∀ c ∈ pre, isWhiteSpace c = true) ∧ (∀ c ∈ post, isWhiteSpace c = true)) ∧
    (∀ c cs, trim s = c :: cs → isWhiteSpace c = false) ∧
    (∀ c cs, trim s = cs ++ [c] → isWhiteSpace c = false) := by
  refine ⟨?_, ?_, ?_⟩
  · refine ⟨s.takeWhile isWhiteSpace,
      ((s.dropWhile isWhiteSpace).reverse.takeWhile isWhiteSpace).reverse, ?_, ?_, ?_⟩
    · have h1 := List.takeWhile_append_dropWhile isWhiteSpace s
      have h2 := List.takeWhile_append_dropWhile isWhiteSpace
        (s.dropWhile isWhiteSpace).reverse
      have h3 : s.dropWhile isWhiteSpace =
          trim s ++ ((s.dropWhile isWhiteSpace).reverse.takeWhile isWhiteSpace).reverse := by
        unfold trim
        rw [← List.reverse_append, h2, List.reverse_reverse]
      rw [List.append_assoc, ← h3, h1]
    · intro c hc
      exact List.mem_takeWhile_imp hc
    · intro c hc
      exact List.mem_takeWhile_imp (List.mem_reverse.1 hc)
  · intro c cs h
    unfold trim at h
    rw [List.reverse_eq_cons_iff] at h
    obtain ⟨t, ht⟩ := List.dropWhile_suffix (l := (s.dropWhile isWhiteSpace).reverse)
      isWhiteSpace
    rw [h] at ht
    have h2 : s.dropWhile isWhiteSpace = c :: (cs ++ t.reverse) := by
      have := congrArg List.reverse ht
      simp only [List.reverse_append, List.reverse_reverse, List.reverse_cons,
        List.reverse_nil, List.nil_append, List.singleton_append, List.cons_append] at this
      rw [← this]
    exact dropWhile_head_not isWhiteSpace s c _ h2
  · intro c cs h
    unfold trim at h
    rw [List.reverse_eq_append_iff] at h
    simp only [List.reverse_cons, List.reverse_nil, List.nil_append,
      List.singleton_append] at h
    exact dropWhile_head_not isWhiteSpace _ c _ h

/-- C8 as amended: for the lexicon that the loader builds from any file and
any text, the username check and the abusive-language rule are true exactly
when the lower-cased form of some lexicon term is a contiguous part of the
lower-cased text; and when `toLowerCase` acts character by character on the
text and on the lexicon terms, that is exactly when some lexicon term occurs
in the text ignoring letter case, anywhere in it, word boundary or not.  The
lexicon holds, for the lines of the file (the file cut at its new lines), the
lower-cased trimmed lines that are not empty. -/
theorem lexicon_match_iff_substring (H : Host) (fold : Char → Char) (file text : Str) :
    ((checkAbusiveUsername H (abusiveWordsDataset H file) text = true ↔
        ∃ term ∈ abusiveWordsDataset H file, H.toLowerCase term <:+: H.toLowerCase text) ∧
      (abusiveWordFound H (abusiveWordsDataset H file) text = true ↔
        ∃ term ∈ abusiveWordsDataset H file,
          H.toLowerCase term <:+: H.toLowerCase text)) ∧
    (H.toLowerCase text = text.map fold →
      (∀ term ∈ abusiveWordsDataset H file, H.toLowerCase term = term.map fold) →
      (checkAbusiveUsername H (abusiveWordsDataset H file) text = true ↔
        ∃ term ∈ abusiveWordsDataset H file, OccursIgnoringCase fold term text) ∧
      (abusiveWordFound H (abusiveWordsDataset H file) text = true ↔
        ∃ term ∈ abusiveWordsDataset H file, OccursIgnoringCase fold term text)) ∧
    ((∀ term, term ∈ abusiveWordsDataset H file ↔
        term ≠ [] ∧ ∃ line ∈ splitLines file, term = H.toLowerCase (trim line)) ∧
      joinLines (splitLines file) = file ∧
      (∀ line ∈ splitLines file, '\n' ∉ line) ∧
      (∀ line : Str,
        (∃ pre post, line = pre ++ trim line ++ post ∧
          (∀ c ∈ pre, isWhiteSpace c = true) ∧ (∀ c ∈ post, isWhiteSpace c = true)) ∧
        (∀ c cs, trim line = c :: cs → isWhiteSpace c = false) ∧
        (∀ c cs, trim line = cs ++ [c] → isWhiteSpace c = false))) := by
  refine ⟨matchers_iff_lowered H _ text, ?_,
    mem_abusiveWordsDataset H file, joinLines_splitLines file, splitLines_no_newline file,
    trim_spec⟩
  intro htext hterms
  have key : (∃ term ∈ abusiveWordsDataset H file,
        H.toLowerCase term <:+: H.toLowerCase text) ↔
      ∃ term ∈ abusiveWordsDataset H file, OccursIgnoringCase fold term text := by
    constructor
    · rintro ⟨w, hw, h⟩
      rw [htext, hterms w hw] at h
      exact ⟨w, hw, (isInfix_map_iff fold _ text).1 h⟩
    · rintro ⟨w, hw, h⟩
      refine ⟨w, hw, ?_⟩
      rw [htext, hterms w hw]
      exact (isInfix_map_iff fold _ text).2 h
  exact ⟨(matchers_iff_lowered H _ text).1.trans key,
    (matchers_iff_lowered H _ text).2.trans key⟩

/-- Witness of the amended C8: an ASCII lexicon file with blank lines, white
space around the entries and capital letters, and a text that holds an entry
inside a longer word, in other letter case. -/
theorem lexicon_match_iff_substring_witness :
    abusiveWordsDataset sampleHost "  Bad Word \r\n\n \t \nSecond".toList =
      ["bad word".toList, "second".toList] ∧
    sampleHost.toLowerCase "xxSECONDSxx".toList = "xxSECONDSxx".toList.map Char.toLower ∧
    checkAbusiveUsername sampleHost
      (abusiveWordsDataset sampleHost "  Bad Word \r\n\n \t \nSecond".toList)
      "xxSECONDSxx".toList = true ∧
    (abusiveWordFound sampleHost
        (abusiveWordsDataset sampleHost "  Bad Word \r\n\n \t \nSecond".toList)
        "xxSECONDSxx".toList = true ↔
      ∃ term ∈ abusiveWordsDataset sampleHost "  Bad Word \r\n\n \t \nSecond".toList,
        OccursIgnoringCase Char.toLower term "xxSECONDSxx".toList) :=
  ⟨by decide, rfl, by decide,
    ((lexicon_match_iff_substring sampleHost Char.toLower
      "  Bad Word \r\n\n \t \nSecond".toList "xxSECONDSxx".toList).2.1 rfl
        (fun _ _ => rfl)).2⟩

/-- Counterexample to C8 as stated: under a `toLowerCase` that knows the
final sigma, the lexicon line `ΣΟΣ` is loaded as the term `σος`.  The line
occurs verbatim at the start of the text `ΣΟΣΑ`, and the loaded term occurs
there ignoring letter case, yet neither matcher flags the text: its lower
case is `σοσα`, in which `σος` does not occur. -/
theorem final_sigma_not_flagged :
    abusiveWordsDataset sigmaHost "ΣΟΣ\n".toList = ["σος".toList] ∧
    sigmaHost.toLowerCase "ΣΟΣΑ".toList = "σοσα".toList ∧
    "ΣΟΣΑ".toList = [] ++ "ΣΟΣ".toList ++ "Α".toList ∧
    (∃ term ∈ abusiveWordsDataset sigmaHost "ΣΟΣ\n".toList,
      OccursIgnoringCase foldLetter term "ΣΟΣΑ".toList) ∧
    checkAbusiveUsername sigmaHost (abusiveWordsDataset sigmaHost "ΣΟΣ\n".toList)
      "ΣΟΣΑ".toList = false ∧
    abusiveWordFound sigmaHost (abusiveWordsDataset sigmaHost "ΣΟΣ\n".toList)
      "ΣΟΣΑ".toList = false := by
  refine ⟨by decide, by decide, by decide, ?_, by decide, by decide⟩
  exact ⟨"σος".toList, by decide, [], "ΣΟΣ".toList, "Α".toList, by decide, by decide⟩

/-! ## Rule order of `checkForViolations` -/

/-- C1: for every message, tracker state and time, `checkForViolations`
returns the verdict of the first rule that holds, in the order mass mention
(more than `mentionLimit` mentioned users), disallowed link (`detectLinks`
returns a link), abusive language (the lower-cased content contains a
lexicon term), spam (the tracker has at least `spamThreshold` recent
messages), and `null` when none holds.  The first part holds whatever the
text of the message is. -/
theorem checkForViolations_first_rule (H : Host) (cfg : Config) (dataset : List Str)
    (st : State) (message : Message) (now : Int) :
    (cfg.mentionLimit < message.mentionCount →
      (checkForViolations H cfg dataset st message now).1.map (·.type) =
        some .MASS_MENTION) ∧
    (¬ cfg.mentionLimit < message.mentionCount →
      0 < (detectLinks H cfg message.content).length →
      (checkForViolations H cfg dataset st message now).1.map (·.type) =
        some .DISALLOWED_LINK) ∧
    (¬ cfg.mentionLimit < message.mentionCount →
      ¬ 0 < (detectLinks H cfg message.content).length →
      (∃ term ∈ dataset,
        includes (H.toLowerCase message.content) (H.toLowerCase term) = true) →
      (checkForViolations H cfg dataset st message now).1.map (·.type) =
        some .ABUSIVE_LANGUAGE) ∧
    (¬ cfg.mentionLimit < message.mentionCount →
      ¬ 0 < (detectLinks H cfg message.content).length →
      ¬ (∃ term ∈ dataset,
        includes (H.toLowerCase message.content) (H.toLowerCase term) = true) →
      cfg.spamThreshold ≤ (recentMessages cfg st message.authorId now).length →
      (checkForViolations H cfg dataset st message now).1.map (·.type) = some .SPAM) ∧
    (¬ cfg.mentionLimit < message.mentionCount →
      ¬ 0 < (detectLinks H cfg message.content).length →
      ¬ (∃ term ∈ dataset,
        includes (H.toLowerCase message.content) (H.toLowerCase term) = true) →
      ¬ cfg.spamThreshold ≤ (recentMessages cfg st message.authorId now).length →
      (checkForViolations H cfg dataset st message now).1 = none) := by
  have habusive : abusiveWordFound H dataset message.content = true ↔
      ∃ term ∈ dataset,
        includes (H.toLowerCase message.content) (H.toLowerCase term) = true := by
    simp [abusiveWordFound, List.any_eq_true]
  refine ⟨?_, ?_, ?_, ?_, ?_⟩
  · intro hm
    simp [checkForViolations, hm]
  · intro hm hl
    simp [checkForViolations, hm, hl]
  · intro hm hl ha
    rw [← habusive] at ha
    simp [checkForViolations, hm, hl, ha]
  · intro hm hl ha hs
    rw [← habusive] at ha
    simp [checkForViolations, hm, hl, ha, spamCheck, hs]
  · intro hm hl ha hs
    rw [← habusive] at ha
    simp [checkForViolations, hm, hl, ha, spamCheck, hs]

/-- Witness of C1: three mentions with `mentionLimit = 2`, in a message that
also carries a disallowed link and a lexicon term. -/
theorem checkForViolations_first_rule_witness :
    config.mentionLimit < (sampleMessage "badword http://evil.example/x" 3).mentionCount ∧
    detectLinks sampleHost config
      (sampleMessage "badword http://evil.example/x" 3).content ≠ [] ∧
    abusiveWordFound sampleHost sampleDataset
      (sampleMessage "badword http://evil.example/x" 3).content = true ∧
    (checkForViolations sampleHost config sampleDataset State.empty
      (sampleMessage "badword http://evil.example/x" 3) 0).1.map (·.type) =
        some .MASS_MENTION :=
  ⟨by decide, by decide, by decide,
    (checkForViolations_first_rule sampleHost config sampleDataset State.empty
      (sampleMessage "badword http://evil.example/x" 3) 0).1 (by decide)⟩

/-! ## The spam tracker -/

theorem recentMessages_eq_filter (cfg : Config) (st : State) (userId : UserId) (now : Int) :
    recentMessages cfg st userId now =
      ((st.userMessageTimestamps userId).getD []).filter
        (fun t => decide (¬ t ≤ now - cfg.spamWindow)) := by
  unfold recentMessages
  congr 1
  funext t
  congr 1
  apply propext
  constructor <;> intro h <;> omega

/-- C3 as amended: let `P` be the stored log of the user with exactly the
entries at or older than `now - spamWindow` removed (the others kept, in
order).  If `P` has at least `spamThreshold` entries the spam step returns
the spam verdict that reports `|P|`, with the incremented trip count, and
leaves the stored log empty; otherwise it returns no verdict and leaves the
stored log equal to `P` followed by `now`. -/
theorem spamCheck_recordAndCheck (cfg : Config) (st : State) (userId : UserId) (now : Int) :
    (cfg.spamThreshold ≤
        (((st.userMessageTimestamps userId).getD []).filter
          (fun t => decide (¬ t ≤ now - cfg.spamWindow))).length →
      (spamCheck cfg st userId now).1 =
        some ⟨.SPAM,
          .messagesInWindow
            (((st.userMessageTimestamps userId).getD []).filter
              (fun t => decide (¬ t ≤ now - cfg.spamWindow))).length cfg.spamWindow,
          some ((st.userSpamCounts userId).getD 0 + 1)⟩ ∧
      (spamCheck cfg st userId now).2.userMessageTimestamps userId = some []) ∧
    (¬ cfg.spamThreshold ≤
        (((st.userMessageTimestamps userId).getD []).filter
          (fun t => decide (¬ t ≤ now - cfg.spamWindow))).length →
      (spamCheck cfg st userId now).1 = none ∧
      (spamCheck cfg st userId now).2.userMessageTimestamps userId =
        some (((st.userMessageTimestamps userId).getD []).filter
          (fun t => decide (¬ t ≤ now - cfg.spamWindow)) ++ [now])) := by
  rw [← recentMessages_eq_filter]
  constructor
  · intro h
    simp [spamCheck, h]
  · intro h
    simp [spamCheck, h]

/-- Witness of the amended C3: a log of five entries, the oldest exactly
`spamWindow` old, so that four are left and no spam is reported. -/
theorem spamCheck_recordAndCheck_witness :
    ¬ config.spamThreshold ≤
      ((((trackerWith [0, 1, 2, 3, 4]).userMessageTimestamps "42").getD []).filter
        (fun t => decide (¬ t ≤ 10000 - config.spamWindow))).length ∧
    (spamCheck config (trackerWith [0, 1, 2, 3, 4]) "42" 10000).1 = none ∧
    (spamCheck config (trackerWith [0, 1, 2, 3, 4]) "42" 10000).2.userMessageTimestamps "42" =
      some ((((trackerWith [0, 1, 2, 3, 4]).userMessageTimestamps "42").getD []).filter
        (fun t => decide (¬ t ≤ 10000 - config.spamWindow)) ++ [10000]) :=
  ⟨by decide,
    (spamCheck_recordAndCheck config (trackerWith [0, 1, 2, 3, 4]) "42" 10000).2 (by decide)⟩

/-- Counterexample to C3 as stated: with the stored log `[0, 1, 2, 3, 4]`,
`now = 10000` and the source's configuration, no entry is older than
`now - spamWindow = 0`, so the tracker as worded keeps five entries and
reports spam; the code drops the entry `0` and reports nothing. -/
theorem spamCheck_boundary_counterexample :
    recordAndCheckSpec config.spamThreshold config.spamWindow [0, 1, 2, 3, 4] 10000 =
      (some 5, []) ∧
    (spamCheck config (trackerWith [0, 1, 2, 3, 4]) "42" 10000).1 = none ∧
    (spamCheck config (trackerWith [0, 1, 2, 3, 4]) "42" 10000).2.userMessageTimestamps "42" =
      some [1, 2, 3, 4, 10000] := by
  decide

/-! ## Scenario A: a burst of messages -/

/-- A message that triggers none of the first three rules goes to the spam
check. -/
theorem checkForViolations_clean (H : Host) (cfg : Config) (dataset : List Str) (st : State)
    (message : Message) (now : Int)
    (hm : message.mentionCount ≤ cfg.mentionLimit)
    (hl : detectLinks H cfg message.content = [])
    (ha : abusiveWordFound H dataset message.content = false) :
    checkForViolations H cfg dataset st message now =
      spamCheck cfg st message.authorId now := by
  have hm2 : ¬ message.mentionCount > cfg.mentionLimit := by omega
  simp [checkForViolations, hm2, hl, ha]

theorem recentMessages_all (cfg : Config) (st : State) (userId : UserId) (now : Int)
    (h : ∀ t ∈ (st.userMessageTimestamps userId).getD [], now - t < cfg.spamWindow) :
    recentMessages cfg st userId now = (st.userMessageTimestamps userId).getD [] := by
  unfold recentMessages
  rw [List.filter_eq_self]
  intro t ht
  simpa using h t ht

/-- The spam check below the threshold: no verdict, the time stamp is
appended, the trip counts are untouched. -/
theorem spamCheck_quiet (cfg : Config) (st : State) (userId : UserId) (now : Int)
    (hw : ∀ t ∈ (st.userMessageTimestamps userId).getD [], now - t < cfg.spamWindow)
    (hlen : ((st.userMessageTimestamps userId).getD []).length < cfg.spamThreshold) :
    (spamCheck cfg st userId now).1 = none ∧
    ((spamCheck cfg st userId now).2.userMessageTimestamps userId).getD [] =
      (st.userMessageTimestamps userId).getD [] ++ [now] ∧
    (spamCheck cfg st userId now).2.userSpamCounts = st.userSpamCounts := by
  have hr := recentMessages_all cfg st userId now hw
  have hlt : ¬ cfg.spamThreshold ≤ ((st.userMessageTimestamps userId).getD []).length := by
    omega
  simp [spamCheck, hr, hlt]

/-- The spam check at the threshold: the spam verdict with the incremented
trip count. -/
theorem spamCheck_trip (cfg : Config) (st : State) (userId : UserId) (now : Int)
    (hw : ∀ t ∈ (st.userMessageTimestamps userId).getD [], now - t < cfg.spamWindow)
    (hlen : cfg.spamThreshold ≤ ((st.userMessageTimestamps userId).getD []).length) :
    (spamCheck cfg st userId now).1 =
      some ⟨.SPAM,
        .messagesInWindow ((st.userMessageTimestamps userId).getD []).length cfg.spamWindow,
        some ((st.userSpamCounts userId).getD 0 + 1)⟩ := by
  have hr := recentMessages_all cfg st userId now hw
  simp [spamCheck, hr, hlen]

theorem checkAll_append (H : Host) (cfg : Config) (dataset : List Str) (st : State)
    (xs ys : List (Message × Int)) :
    checkAll H cfg dataset st (xs ++ ys) =
      ((checkAll H cfg dataset st xs).1 ++
          (checkAll H cfg dataset (checkAll H cfg dataset st xs).2 ys).1,
        (checkAll H cfg dataset (checkAll H cfg dataset st xs).2 ys).2) := by
  induction xs generalizing st with
  | nil => simp [checkAll]
  | cons x xs ih =>
    obtain ⟨m, now⟩ := x
    simp [checkAll, ih]

/-- A run of harmless messages of one user that stays below the threshold
and inside the window yields no verdict and accumulates the time stamps. -/
theorem checkAll_quiet (H : Host) (cfg : Config) (dataset : List Str) (userId : UserId)
    (run : List (Message × Int)) :
    ∀ st : State,
      ((st.userMessageTimestamps userId).getD []).length + run.length ≤ cfg.spamThreshold →
      (∀ p ∈ run, p.1.authorId = userId ∧ p.1.mentionCount ≤ cfg.mentionLimit ∧
        detectLinks H cfg p.1.content = [] ∧
        abusiveWordFound H dataset p.1.content = false) →
      (∀ t ∈ (st.userMessageTimestamps userId).getD [], ∀ q ∈ run,
        q.2 - t < cfg.spamWindow) →
      (∀ p ∈ run, ∀ q ∈ run, q.2 - p.2 < cfg.spamWindow) →
      (checkAll H cfg dataset st run).1 = List.replicate run.length none ∧
      ((checkAll H cfg dataset st run).2.userMessageTimestamps userId).getD [] =
        (st.userMessageTimestamps userId).getD [] ++ run.map (fun p => p.2) ∧
      (checkAll H cfg dataset st run).2.userSpamCounts = st.userSpamCounts := by
  induction run with
  | nil =>
    intro st _ _ _ _
    simp [checkAll]
  | cons x rest ih =>
    intro st hlen hclean hold hpair
    obtain ⟨m, now⟩ := x
    obtain ⟨hu, hm, hl, ha⟩ := hclean (m, now) (List.mem_cons_self _ _)
    simp only at hu hm hl ha
    have hstep : checkForViolations H cfg dataset st m now = spamCheck cfg st userId now := by
      rw [checkForViolations_clean H cfg dataset st m now hm hl ha, hu]
    have hw : ∀ t ∈ (st.userMessageTimestamps userId).getD [], now - t < cfg.spamWindow :=
      fun t ht => hold t ht (m, now) (List.mem_cons_self _ _)
    have hlt : ((st.userMessageTimestamps userId).getD []).length < cfg.spamThreshold := by
      simp only [List.length_cons] at hlen
      omega
    obtain ⟨h1, h2, h3⟩ := spamCheck_quiet cfg st userId now hw hlt
    have hrec := ih (spamCheck cfg st userId now).2
      (by
        rw [h2]
        simp only [List.length_append, List.length_cons, List.length_nil] at hlen ⊢
        omega)
      (fun p hp => hclean p (List.mem_cons_of_mem _ hp))
      (by
        intro t ht q hq
        rw [h2, List.mem_append] at ht
        rcases ht with ht | ht
        · exact hold t ht q (List.mem_cons_of_mem _ hq)
        · simp only [List.mem_singleton] at ht
          rw [ht]
          exact hpair (m, now) (List.mem_cons_self _ _) q (List.mem_cons_of_mem _ hq))
      (fun p hp q hq => hpair p (List.mem_cons_of_mem _ hp) q (List.mem_cons_of_mem _ hq))
    obtain ⟨r1, r2, r3⟩ := hrec
    simp only [checkAll, hstep, List.length_cons, List.replicate_succ, List.map_cons]
    refine ⟨?_, ?_, ?_⟩
    · rw [r1, h1]
    · rw [r2, h2]
      simp
    · rw [r3, h3]

/-- C2 as amended: for a user with no tracked spam state and a run of
`spamThreshold` messages of that user followed by one more, none of which
triggers the mention, link or abusive-language rule and whose time stamps
all lie within less than `spamWindow` milliseconds of each other, no
message of the run is flagged and the message after it, the
`spamThreshold + 1`-th, is classified SPAM with count 1; the punishment
selected for it from the source's spam ladder is WARN whatever the store
holds. -/
theorem spam_trips_after_threshold (H : Host) (cfg : Config) (dataset : List Str)
    (st : State) (userId : UserId) (run : List (Message × Int)) (last : Message × Int)
    (hts : st.userMessageTimestamps userId = none)
    (hsc : st.userSpamCounts userId = none)
    (hlen : run.length = cfg.spamThreshold)
    (hclean : ∀ p ∈ run ++ [last], p.1.authorId = userId ∧
      p.1.mentionCount ≤ cfg.mentionLimit ∧ detectLinks H cfg p.1.content = [] ∧
      abusiveWordFound H dataset p.1.content = false)
    (hwin : ∀ p ∈ run ++ [last], ∀ q ∈ run ++ [last], q.2 - p.2 < cfg.spamWindow)
    (hladder : cfg.spamPunishments = spamPunishments) :
    (checkAll H cfg dataset st (run ++ [last])).1 =
      List.replicate cfg.spamThreshold none ++
        [some ⟨.SPAM, .messagesInWindow cfg.spamThreshold cfg.spamWindow, some 1⟩] ∧
    ∀ st2 : State,
      (selectedPunishment cfg st2 last.1
        ⟨.SPAM, .messagesInWindow cfg.spamThreshold cfg.spamWindow, some 1⟩).map
          (·.type) = some .WARN := by
  have hq := checkAll_quiet H cfg dataset userId run st
    (by simp [hts, hlen])
    (fun p hp => hclean p (List.mem_append_left _ hp))
    (by simp [hts])
    (fun p hp q hq => hwin p (List.mem_append_left _ hp) q (List.mem_append_left _ hq))
  obtain ⟨q1, q2, q3⟩ := hq
  obtain ⟨m, now⟩ := last
  obtain ⟨hu, hm, hl, ha⟩ := hclean (m, now) (by simp)
  simp only at hu hm hl ha
  constructor
  · rw [checkAll_append, q1, hlen]
    simp only [checkAll]
    rw [checkForViolations_clean H cfg dataset _ m now hm hl ha, hu]
    have hlog : ((checkAll H cfg dataset st run).2.userMessageTimestamps userId).getD [] =
        run.map (fun p => p.2) := by
      rw [q2, hts]
      simp
    have htrip := spamCheck_trip cfg (checkAll H cfg dataset st run).2 userId now
      (by
        intro t ht
        rw [hlog, List.mem_map] at ht
        obtain ⟨p, hp, rfl⟩ := ht
        exact hwin p (List.mem_append_left _ hp) (m, now) (by simp))
      (by rw [hlog]; simp [hlen])
    rw [htrip, hlog, q3, hsc]
    simp [hlen]
  · intro st2
    simp [selectedPunishment, selectPunishment, passedCount, passedLadder, newCount,
      customizeLadder, ladderOf, hladder, spamPunishments]

/-- Witness of the amended C2: threshold 5, window 10000, five messages within
nine seconds and a sixth half a second later, which is the one flagged. -/
theorem spam_trips_after_threshold_witness :
    (checkAll sampleHost config sampleDataset State.empty
        (fiveMessages ++ [(sampleMessage "six" 0, 9500)])).1 =
      List.replicate config.spamThreshold none ++
        [some ⟨.SPAM, .messagesInWindow config.spamThreshold config.spamWindow, some 1⟩] ∧
    ∀ st2 : State,
      (selectedPunishment config st2 (sampleMessage "six" 0, (9500 : Int)).1
        ⟨.SPAM, .messagesInWindow config.spamThreshold config.spamWindow, some 1⟩).map
          (·.type) = some .WARN :=
  spam_trips_after_threshold sampleHost config sampleDataset State.empty "42" fiveMessages
    (sampleMessage "six" 0, 9500) rfl rfl (by decide) (by decide) (by decide) rfl

/-- Counterexample to C2 as stated (Scenario A): with threshold 5 and window
10000, a user with no tracked state posts five harmless messages within nine
seconds; the fifth message, like the four before it, gets no verdict. -/
theorem fifth_message_not_flagged :
    State.empty.userMessageTimestamps "42" = none ∧
    State.empty.userSpamCounts "42" = none ∧
    fiveMessages.length = config.spamThreshold ∧
    (∀ p ∈ fiveMessages, p.1.authorId = "42" ∧ p.1.mentionCount ≤ config.mentionLimit ∧
      detectLinks sampleHost config p.1.content = [] ∧
      abusiveWordFound sampleHost sampleDataset p.1.content = false) ∧
    (∀ p ∈ fiveMessages, ∀ q ∈ fiveMessages, q.2 - p.2 < config.spamWindow) ∧
    (checkAll sampleHost config sampleDataset State.empty fiveMessages).1 =
      [none, none, none, none, none] := by
  refine ⟨rfl, rfl, by decide, by decide, by decide, by decide⟩

/-! ## Links -/

/-- C4, the code at the failing input: the text holds the single token
`http://discowww.rd.com/x`, whose host name `discowww.rd.com` has no leading
`www.` and is not an allowed domain, yet `detectLinks` discards the token,
because `replace` removes the `www.` inside the name and leaves
`discord.com`.  The token of Scenario C is kept. -/
theorem detectLinks_inner_www_discarded :
    urlMatches "see http://discowww.rd.com/x".toList = ["http://discowww.rd.com/x".toList] ∧
    sampleHost.urlHostname "http://discowww.rd.com/x".toList =
      some "discowww.rd.com".toList ∧
    stripLeadingWwwSpec "discowww.rd.com".toList = "discowww.rd.com".toList ∧
    config.allowedDomains.contains (stripLeadingWwwSpec "discowww.rd.com".toList) = false ∧
    replaceFirst "www.".toList [] "discowww.rd.com".toList = "discord.com".toList ∧
    detectLinks sampleHost config "see http://discowww.rd.com/x".toList = [] ∧
    detectLinks sampleHost config "see http://evil.example/x".toList =
      ["http://evil.example/x".toList] := by
  decide

/-! ## Punishment ladders -/

theorem min_three_cases (n : Nat) (hn : 1 ≤ n) :
    (n = 1 ∧ min n 3 = 1) ∨ (n = 2 ∧ min n 3 = 2) ∨ (3 ≤ n ∧ min n 3 = 3) := by
  omega

/-- C5: for each of the four ladders of the source and every count
`n ≥ 1`, the entry selected is the one at tier `min n 3`, of type WARN for
`n = 1`, MUTE for `n = 2` and BAN for `n ≥ 3`; `handleViolation` takes
the ladder of the category of the violation (links, mentions, spam, and the
general ladder for abusive language) and passes it on with every tier's type,
duration and channel message as configured, and unchanged altogether except
for a mass mention. -/
theorem selectPunishment_tier (n : Nat) (hn : 1 ≤ n) :
    (∀ ladder ∈ [config.punishments, config.linkPunishments, config.mentionPunishments,
        config.spamPunishments],
      selectPunishment ladder n = ladder (min n 3) ∧
      (selectPunishment ladder n).map (·.type) =
        some (if n = 1 then .WARN else if n = 2 then .MUTE else .BAN)) ∧
    (ladderOf config .ABUSIVE_LANGUAGE = config.punishments ∧
      ladderOf config .DISALLOWED_LINK = config.linkPunishments ∧
      ladderOf config .MASS_MENTION = config.mentionPunishments ∧
      ladderOf config .SPAM = config.spamPunishments) ∧
    (∀ violation : Violation,
      (selectPunishment (passedLadder config violation) n).map (·.type) =
        some (if n = 1 then .WARN else if n = 2 then .MUTE else .BAN) ∧
      (∀ tier, (passedLadder config violation tier).map
          (fun p => (p.type, p.duration, p.channelMsg)) =
        (ladderOf config violation.type tier).map
          (fun p => (p.type, p.duration, p.channelMsg))) ∧
      (violation.type ≠ .MASS_MENTION →
        passedLadder config violation = ladderOf config violation.type)) := by
  refine ⟨?_, ⟨rfl, rfl, rfl, rfl⟩, ?_⟩
  · intro ladder hl
    refine ⟨rfl, ?_⟩
    simp only [List.mem_cons, List.mem_singleton, List.not_mem_nil, or_false] at hl
    rcases min_three_cases n hn with ⟨h1, h2⟩ | ⟨h1, h2⟩ | ⟨h1, h2⟩
    · subst h1
      rcases hl with rfl | rfl | rfl | rfl <;> rfl
    · subst h1
      rcases hl with rfl | rfl | rfl | rfl <;> rfl
    · have hne1 : n ≠ 1 := by omega
      have hne2 : n ≠ 2 := by omega
      simp only [selectPunishment, h2, hne1, hne2, if_false]
      rcases hl with rfl | rfl | rfl | rfl <;> rfl
  · intro violation
    obtain ⟨type, details, count⟩ := violation
    refine ⟨?_, ?_, ?_⟩
    · rcases min_three_cases n hn with ⟨h1, h2⟩ | ⟨h1, h2⟩ | ⟨h1, h2⟩
      · subst h1
        cases type <;> simp only [passedLadder] <;> decide
      · subst h1
        cases type <;> simp only [passedLadder] <;> decide
      · have hne1 : n ≠ 1 := by omega
        have hne2 : n ≠ 2 := by omega
        simp only [selectPunishment, h2, hne1, hne2, if_false, passedLadder]
        cases type <;> decide
    · intro tier
      cases type
      case MASS_MENTION =>
        by_cases ht : tier = 1
        · subst ht
          simp only [passedLadder]
          decide
        · simp [passedLadder, customizeLadder, ladderOf, config, mentionPunishments, ht]
      all_goals rfl
    · intro hne
      cases type
      case MASS_MENTION => exact absurd rfl hne
      all_goals rfl

/-- Witness of C5: the third violation. -/
theorem selectPunishment_tier_witness :
    1 ≤ 3 ∧ (selectPunishment config.spamPunishments 3).map (·.type) = some .BAN :=
  ⟨by decide, ((selectPunishment_tier 3 (by decide)).1 config.spamPunishments
    (by simp)).2⟩

/-! ## The store update of `handleViolation` -/

theorem field_setField_same (d : ViolationDoc) (f : CountField) (n : Nat) :
    (d.setField f n).field f = some n := by
  cases f <;> rfl

theorem field_setField_other (d : ViolationDoc) (f g : CountField) (n : Nat) (h : g ≠ f) :
    (d.setField f n).field g = d.field g := by
  cases f <;> cases g <;> first | rfl | exact absurd rfl h

theorem field_mergeSet_same (doc : Option ViolationDoc) (message : Message)
    (violation : Violation) (f : CountField) (n : Nat) :
    (mergeSet doc message violation f n).field f = some n := by
  cases doc <;> simp [mergeSet, field_setField_same]

theorem field_mergeSet_other (doc : Option ViolationDoc) (message : Message)
    (violation : Violation) (f g : CountField) (n : Nat) (h : g ≠ f) :
    (mergeSet doc message violation f n).field g = doc.bind (fun d => d.field g) := by
  cases doc with
  | none =>
    simp only [mergeSet, Option.bind]
    rw [field_setField_other _ _ _ _ h]
    cases g <;> rfl
  | some d =>
    simp only [mergeSet, Option.bind]
    rw [field_setField_other _ _ _ _ h]
    cases g <;> rfl

theorem readCount_eq_storedField (st : State) (userId : UserId) (f : CountField) :
    readCount st userId f = (storedField st userId f).getD 0 := by
  unfold readCount storedField currentCount
  cases st.violations userId <;> rfl

/-- The state after a successful store update: the document of the author
is the merged one, everything else is as before. -/
theorem recordViolation_ok (o : Outcome) (st : State) (message : Message)
    (violation : Violation) (hget : o.getOk = true) (hset : o.setOk = true) :
    recordViolation o st message violation =
      some { st with
        violations := Function.update st.violations message.authorId
          (some (mergeSet (st.violations message.authorId) message violation
            (countFieldOf violation.type) (passedCount st message violation))) } := by
  simp [recordViolation, hget, hset, passedCount]

theorem recordViolation_fail (o : Outcome) (st : State) (message : Message)
    (violation : Violation) (h : ¬ (o.getOk = true ∧ o.setOk = true)) :
    recordViolation o st message violation = none := by
  simp only [recordViolation, Bool.and_eq_true]
  rw [if_neg h]

/-- With no executed ban, `applyPunishment` leaves the state as it is. -/
theorem applyPunishment_no_ban (o : Outcome) (st : State) (message : Message) (n : Nat)
    (ladder : Ladder)
    (h : ¬ ((selectPunishment ladder n).map (·.type) = some .BAN ∧
      o.banOk = true ∧ o.deleteOk = true)) :
    applyPunishment o st message n ladder = st := by
  unfold applyPunishment
  cases hs : selectPunishment ladder n with
  | none => rfl
  | some p =>
    rw [hs] at h
    cases ht : p.type with
    | WARN => simp [ht]
    | MUTE => simp [ht]
    | BAN =>
      simp only [Option.map_some', ht, true_and] at h
      have : (o.banOk && o.deleteOk) = false := by
        cases hb : o.banOk <;> cases hd : o.deleteOk <;> simp_all
      simp [ht, this]

/-- With an executed ban, `applyPunishment` removes the author from the
store and from both maps. -/
theorem applyPunishment_ban (o : Outcome) (st : State) (message : Message) (n : Nat)
    (ladder : Ladder)
    (h : (selectPunishment ladder n).map (·.type) = some .BAN)
    (hban : o.banOk = true) (hdel : o.deleteOk = true) :
    applyPunishment o st message n ladder =
      { userMessageTimestamps :=
          Function.update st.userMessageTimestamps message.authorId none
        userSpamCounts := Function.update st.userSpamCounts message.authorId none
        violations := Function.update st.violations message.authorId none } := by
  unfold applyPunishment
  cases hs : selectPunishment ladder n with
  | none => rw [hs] at h; simp at h
  | some p =>
    rw [hs] at h
    simp only [Option.map_some', Option.some.injEq] at h
    simp [h, hban, hdel]

/-- The stored counters after the store update of `handleViolation`. -/
theorem storedField_recordViolation (o : Outcome) (st st1 : State) (message : Message)
    (violation : Violation) (h : recordViolation o st message violation = some st1)
    (userId : UserId) (f : CountField) :
    storedField st1 userId f =
      if userId = message.authorId ∧ f = countFieldOf violation.type then
        some (passedCount st message violation)
      else storedField st userId f := by
  by_cases hok : o.getOk = true ∧ o.setOk = true
  · rw [recordViolation_ok o st message violation hok.1 hok.2] at h
    simp only [Option.some.injEq] at h
    subst h
    by_cases hu : userId = message.authorId
    · subst hu
      by_cases hf : f = countFieldOf violation.type
      · subst hf
        simp [storedField, field_mergeSet_same]
      · simp [storedField, hf, field_mergeSet_other _ _ _ _ _ _ hf]
    · simp [storedField, hu, Function.update_noteq hu]
  · rw [recordViolation_fail o st message violation hok] at h
    cases h

/-! ## Counters under `handleViolation` -/

theorem passedCount_ge (st : State) (message : Message) (violation : Violation)
    (hcount : ∀ c, violation.count = some c →
      readCount st message.authorId (countFieldOf violation.type) ≤ c) :
    readCount st message.authorId (countFieldOf violation.type) ≤
      passedCount st message violation := by
  unfold passedCount newCount
  cases hc : violation.count with
  | none => simp only [readCount]; omega
  | some c =>
    have := hcount c hc
    simp only [readCount] at this ⊢
    split <;> omega

theorem passedCount_of_no_count (st : State) (message : Message) (violation : Violation)
    (hc : violation.count = none) :
    passedCount st message violation =
      readCount st message.authorId (countFieldOf violation.type) + 1 := by
  simp [passedCount, newCount, hc, readCount]

/-- C6 as amended: for every violation handled by `handleViolation` whose
selected punishment is not a ban and whose explicit count, when it carries
one (the spam verdict), is not below the stored count of its category, the
count read for every user and every category after the step is at least the
count read before it. -/
theorem handleViolation_counts_monotone (cfg : Config) (o : Outcome) (st : State)
    (message : Message) (violation : Violation)
    (hnoban : (selectedPunishment cfg st message violation).map (·.type) ≠ some .BAN)
    (hcount : ∀ c, violation.count = some c →
      readCount st message.authorId (countFieldOf violation.type) ≤ c)
    (userId : UserId) (f : CountField) :
    readCount st userId f ≤
      readCount (handleViolation cfg o st message violation) userId f := by
  unfold handleViolation
  cases h : recordViolation o st message violation with
  | none => exact le_refl _
  | some st1 =>
    simp only
    rw [applyPunishment_no_ban o st1 message _ _ (fun hb => hnoban hb.1)]
    rw [readCount_eq_storedField st1, storedField_recordViolation o st st1 message violation h]
    split
    · next hcond =>
      obtain ⟨hu, hf⟩ := hcond
      subst hu
      subst hf
      simpa using passedCount_ge st message violation hcount
    · rw [← readCount_eq_storedField]

/-- Witness of the amended C6: a second spam trip of a user whose stored spam
count is 1; the punishment is MUTE and the stored count rises to 2. -/
theorem handleViolation_counts_monotone_witness :
    (selectedPunishment config (storeWith (some 1) none none (some 1)) (sampleMessage "six" 0)
      ⟨.SPAM, .messagesInWindow 5 10000, some 2⟩).map (·.type) ≠ some .BAN ∧
    readCount (storeWith (some 1) none none (some 1)) "42" .spamViolations ≤
      readCount (handleViolation config Outcome.allOk (storeWith (some 1) none none (some 1))
        (sampleMessage "six" 0) ⟨.SPAM, .messagesInWindow 5 10000, some 2⟩) "42"
        .spamViolations :=
  ⟨by decide,
    handleViolation_counts_monotone config Outcome.allOk (storeWith (some 1) none none (some 1))
      (sampleMessage "six" 0) ⟨.SPAM, .messagesInWindow 5 10000, some 2⟩ (by decide)
      (by intro c hc; cases hc; decide) "42" .spamViolations⟩

/-- Counterexample to C6 as stated: the store holds `spamViolations = 2`
for user 42 and the process is fresh.  The sixth message of a burst is
classified SPAM with count 1, the punishment selected is WARN, not a ban, and
`handleViolation` lowers the stored spam count from 2 to 1. -/
theorem spam_count_decreases :
    readCount (checkAll sampleHost config sampleDataset (storeWith none none none (some 2))
      fiveMessages).2 "42" .spamViolations = 2 ∧
    (checkForViolations sampleHost config sampleDataset
      (checkAll sampleHost config sampleDataset (storeWith none none none (some 2))
        fiveMessages).2 (sampleMessage "six" 0) 9500).1 =
      some ⟨.SPAM, .messagesInWindow 5 10000, some 1⟩ ∧
    (selectedPunishment config
      (checkAll sampleHost config sampleDataset (storeWith none none none (some 2))
        fiveMessages).2 (sampleMessage "six" 0)
      ⟨.SPAM, .messagesInWindow 5 10000, some 1⟩).map (·.type) = some .WARN ∧
    readCount (messageCreate sampleHost config sampleDataset Outcome.allOk
      (checkAll sampleHost config sampleDataset (storeWith none none none (some 2))
        fiveMessages).2 (sampleMessage "six" 0) 9500) "42" .spamViolations = 1 := by
  decide

/-- C7: when the ban and the store delete succeed, `applyPunishment` with a
selected punishment of type BAN leaves the author without a document, so that
the count read for each of the four categories is 0, and without an entry in
`userSpamCounts` and `userMessageTimestamps`; and so does `handleViolation`
for every violation whose selected punishment is BAN, once its store read and
write have succeeded. -/
theorem ban_clears_all (cfg : Config) (o : Outcome) (st : State) (message : Message)
    (violation : Violation) (hban : o.banOk = true) (hdel : o.deleteOk = true) :
    (∀ (n : Nat) (ladder : Ladder),
      (selectPunishment ladder n).map (·.type) = some .BAN →
      ClearedFor (applyPunishment o st message n ladder) message.authorId) ∧
    (o.getOk = true → o.setOk = true →
      (selectedPunishment cfg st message violation).map (·.type) = some .BAN →
      ClearedFor (handleViolation cfg o st message violation) message.authorId) := by
  constructor
  · intro n ladder hsel
    rw [applyPunishment_ban o st message n ladder hsel hban hdel]
    refine ⟨by simp, ?_, by simp, by simp⟩
    intro f
    simp [readCount, currentCount]
  · intro hget hset hsel
    have hv : handleViolation cfg o st message violation =
        { userMessageTimestamps :=
            Function.update st.userMessageTimestamps message.authorId none
          userSpamCounts := Function.update st.userSpamCounts message.authorId none
          violations := Function.update st.violations message.authorId none } := by
      unfold handleViolation
      rw [recordViolation_ok o st message violation hget hset]
      simp only
      rw [applyPunishment_ban o _ message _ _ hsel hban hdel]
      simp
    rw [hv]
    refine ⟨by simp, ?_, by simp, by simp⟩
    intro f
    simp [readCount, currentCount]

/-- Witness of C7: a third link violation of a user who also has counts in
two other categories and tracked spam state. -/
theorem ban_clears_all_witness :
    readCount banSampleState "42" .spamViolations = 2 ∧
    banSampleState.userSpamCounts "42" = some 2 ∧
    (selectedPunishment config banSampleState (sampleMessage "http://evil.example/x" 0)
      ⟨.DISALLOWED_LINK, .sentLinks ["http://evil.example/x".toList], none⟩).map
        (·.type) = some .BAN ∧
    ClearedFor (handleViolation config Outcome.allOk banSampleState
      (sampleMessage "http://evil.example/x" 0)
      ⟨.DISALLOWED_LINK, .sentLinks ["http://evil.example/x".toList], none⟩)
      (sampleMessage "http://evil.example/x" 0).authorId :=
  ⟨by decide, by decide, by decide,
    (ban_clears_all config Outcome.allOk banSampleState
      (sampleMessage "http://evil.example/x" 0)
      ⟨.DISALLOWED_LINK, .sentLinks ["http://evil.example/x".toList], none⟩
      rfl rfl).2 rfl rfl (by decide)⟩

/-- C9: for every user, every store state (a missing record or field reads as
0) and every violation without an explicit count, the store update of
`handleViolation` (lines 314-347), when its read and write succeed, writes to
the counter of the violation's category its previous value plus 1 and leaves
the three other counters of the author as they were; a second bare update with
the same violation writes the previous value plus 2, again with the three
other counters untouched.  The state that `handleViolation` returns is the
updated one unless the selected punishment is a ban that is carried out. -/
theorem handleViolation_increments (cfg : Config) (o : Outcome) (st : State)
    (message : Message) (violation : Violation)
    (hc : violation.count = none) (hget : o.getOk = true) (hset : o.setOk = true) :
    ∃ st1 st2,
      recordViolation o st message violation = some st1 ∧
      recordViolation o st1 message violation = some st2 ∧
      storedField st1 message.authorId (countFieldOf violation.type) =
        some (readCount st message.authorId (countFieldOf violation.type) + 1) ∧
      (∀ f, f ≠ countFieldOf violation.type →
        storedField st1 message.authorId f = storedField st message.authorId f) ∧
      storedField st2 message.authorId (countFieldOf violation.type) =
        some (readCount st message.authorId (countFieldOf violation.type) + 2) ∧
      (∀ f, f ≠ countFieldOf violation.type →
        storedField st2 message.authorId f = storedField st message.authorId f) ∧
      (¬ ((selectedPunishment cfg st message violation).map (·.type) = some .BAN ∧
          o.banOk = true ∧ o.deleteOk = true) →
        handleViolation cfg o st message violation = st1) := by
  obtain ⟨st1, h1⟩ : ∃ st1, recordViolation o st message violation = some st1 :=
    ⟨_, recordViolation_ok o st message violation hget hset⟩
  obtain ⟨st2, h2⟩ : ∃ st2, recordViolation o st1 message violation = some st2 :=
    ⟨_, recordViolation_ok o st1 message violation hget hset⟩
  have hstep : ∀ s s1, recordViolation o s message violation = some s1 →
      storedField s1 message.authorId (countFieldOf violation.type) =
        some (readCount s message.authorId (countFieldOf violation.type) + 1) ∧
      ∀ f, f ≠ countFieldOf violation.type →
        storedField s1 message.authorId f = storedField s message.authorId f := by
    intro s s1 hs
    constructor
    · rw [storedField_recordViolation o s s1 message violation hs,
        passedCount_of_no_count s message violation hc]
      simp
    · intro f hf
      rw [storedField_recordViolation o s s1 message violation hs]
      simp [hf]
  obtain ⟨a1, b1⟩ := hstep _ _ h1
  obtain ⟨a2, b2⟩ := hstep _ _ h2
  refine ⟨st1, st2, h1, h2, a1, b1, ?_, ?_, ?_⟩
  · rw [a2, readCount_eq_storedField, a1]
    simp
  · intro f hf
    rw [b2 f hf, b1 f hf]
  · intro hnoban
    unfold handleViolation
    rw [h1]
    simp only
    exact applyPunishment_no_ban o _ message _ _ hnoban

/-- Witness of C9: a link violation of a user whose document holds
`linkViolations = 2` next to counts in two other categories; the first update
writes 3, a second one 4, and `count` stays 1. -/
theorem handleViolation_increments_witness :
    (Violation.mk .DISALLOWED_LINK (.sentLinks ["http://evil.example/x".toList]) none).count =
      none ∧
    readCount banSampleState "42" .linkViolations = 2 ∧
    (recordViolation Outcome.allOk banSampleState (sampleMessage "http://evil.example/x" 0)
      ⟨.DISALLOWED_LINK, .sentLinks ["http://evil.example/x".toList], none⟩).map
        (fun s => (storedField s "42" .linkViolations, storedField s "42" .count)) =
      some (some 3, some 1) ∧
    ((recordViolation Outcome.allOk banSampleState (sampleMessage "http://evil.example/x" 0)
      ⟨.DISALLOWED_LINK, .sentLinks ["http://evil.example/x".toList], none⟩).bind
        (fun s => recordViolation Outcome.allOk s (sampleMessage "http://evil.example/x" 0)
          ⟨.DISALLOWED_LINK, .sentLinks ["http://evil.example/x".toList], none⟩)).map
        (fun s => (storedField s "42" .linkViolations, storedField s "42" .count)) =
      some (some 4, some 1) ∧
    ∃ st1 st2,
      recordViolation Outcome.allOk banSampleState (sampleMessage "http://evil.example/x" 0)
        ⟨.DISALLOWED_LINK, .sentLinks ["http://evil.example/x".toList], none⟩ = some st1 ∧
      recordViolation Outcome.allOk st1 (sampleMessage "http://evil.example/x" 0)
        ⟨.DISALLOWED_LINK, .sentLinks ["http://evil.example/x".toList], none⟩ = some st2 ∧
      storedField st2 "42" .linkViolations = some 4 := by
  refine ⟨rfl, by decide, by decide, by decide, ?_⟩
  obtain ⟨st1, st2, h1, h2, _, _, h5, _⟩ :=
    handleViolation_increments config Outcome.allOk banSampleState
      (sampleMessage "http://evil.example/x" 0)
      ⟨.DISALLOWED_LINK, .sentLinks ["http://evil.example/x".toList], none⟩ rfl rfl rfl
  exact ⟨st1, st2, h1, h2, h5⟩

/-! ## The count passed to `applyPunishment` -/

/-- A verdict of `checkForViolations` carries no count or a positive one. -/
theorem checkForViolations_count (H : Host) (cfg : Config) (dataset : List Str) (st st1 : State)
    (message : Message) (now : Int) (violation : Violation)
    (h : checkForViolations H cfg dataset st message now = (some violation, st1)) :
    violation.count = none ∨ ∃ k, violation.count = some (k + 1) := by
  unfold checkForViolations at h
  simp only at h
  split at h
  · simp only [Prod.mk.injEq, Option.some.injEq] at h
    rw [← h.1]
    exact Or.inl rfl
  · split at h
    · simp only [Prod.mk.injEq, Option.some.injEq] at h
      rw [← h.1]
      exact Or.inl rfl
    · split at h
      · simp only [Prod.mk.injEq, Option.some.injEq] at h
        rw [← h.1]
        exact Or.inl rfl
      · unfold spamCheck at h
        simp only at h
        split at h
        · simp only [Prod.mk.injEq, Option.some.injEq] at h
          rw [← h.1]
          exact Or.inr ⟨_, rfl⟩
        · simp at h

/-- C10: for every verdict that `checkForViolations` returns and every store
state (counters absent or natural numbers), the count that `handleViolation`
passes to `applyPunishment` is at least 1, the tier `min count 3` is 1, 2 or
3, and the ladder passed has an entry there, so the selected punishment is
never undefined. -/
theorem passedCount_selects_defined_tier (H : Host) (dataset : List Str) (st st1 : State)
    (message : Message) (now : Int) (violation : Violation)
    (h : checkForViolations H config dataset st message now = (some violation, st1))
    (store : State) (handled : Message) :
    1 ≤ passedCount store handled violation ∧
    (min (passedCount store handled violation) 3 = 1 ∨
      min (passedCount store handled violation) 3 = 2 ∨
      min (passedCount store handled violation) 3 = 3) ∧
    (selectedPunishment config store handled violation).isSome = true := by
  have hpos : 1 ≤ passedCount store handled violation := by
    unfold passedCount newCount
    rcases checkForViolations_count H config dataset st st1 message now violation h with
      hc | ⟨k, hc⟩
    · rw [hc]
      simp
    · rw [hc]
      simp
  have hmin : min (passedCount store handled violation) 3 = 1 ∨
      min (passedCount store handled violation) 3 = 2 ∨
      min (passedCount store handled violation) 3 = 3 := by
    omega
  refine ⟨hpos, hmin, ?_⟩
  unfold selectedPunishment selectPunishment
  obtain ⟨type, details, count⟩ := violation
  rcases hmin with hm | hm | hm <;> rw [hm] <;> simp only [passedLadder] <;>
    cases type <;> decide

/-- Witness of C10: the spam verdict of the sixth message of a burst, handled
against a store that holds a spam count of 7. -/
theorem passedCount_selects_defined_tier_witness :
    (checkForViolations sampleHost config sampleDataset
        (checkAll sampleHost config sampleDataset State.empty fiveMessages).2
        (sampleMessage "six" 0) 9500).1 =
      some ⟨.SPAM, .messagesInWindow 5 10000, some 1⟩ ∧
    1 ≤ passedCount (storeWith none none none (some 7)) (sampleMessage "six" 0)
      ⟨.SPAM, .messagesInWindow 5 10000, some 1⟩ :=
  ⟨by decide,
    (passedCount_selects_defined_tier sampleHost sampleDataset
      (checkAll sampleHost config sampleDataset State.empty fiveMessages).2
      (checkForViolations sampleHost config sampleDataset
        (checkAll sampleHost config sampleDataset State.empty fiveMessages).2
        (sampleMessage "six" 0) 9500).2
      (sampleMessage "six" 0) 9500 ⟨.SPAM, .messagesInWindow 5 10000, some 1⟩
      (Prod.ext (by decide) rfl) (storeWith none none none (some 7))
      (sampleMessage "six" 0)).1⟩

end ModBot
